import Mathlib

/-!
Verification of the whiskers templating operations.

This file shallowly embeds the code of src/whiskers/src/functions.rs and
src/whiskers/src/templating.rs and proves the specified properties about it.

Modelling choices:
- tera::Value (a serde_json value) becomes the inductive Value below; numbers
  are modelled as rationals.
- HashMap<String, tera::Value> argument maps become association lists; the
  HashMap invariant (pairwise distinct keys) appears as a Nodup hypothesis
  where a theorem needs it, and HashMap equality (equality as key/value sets)
  appears as a permutation hypothesis.
- BTreeMap<&String, &Value> (used by object) is modelled by ordered insertion
  into a key-sorted association list, with Rust's String ordering (bytewise
  lexicographic, which for UTF-8 agrees with the character order used here).
- Result<tera::Value, tera::Error> becomes Except String Value.
- Code of the repository that is not under src/ (models.rs with the Color
  type, the css_colors conversions, the host engine glue) is modelled from
  the spec; each such definition carries a doc comment saying so.
-/

namespace Whiskers

/-- Template Value of the spec, the shallow embedding of tera::Value: null,
booleans, numbers (modelled as rationals), strings, arrays, and mappings kept
as association lists in insertion order. -/
inductive Value where
  | null : Value
  | bool : Bool → Value
  | num : ℚ → Value
  | str : String → Value
  | arr : List Value → Value
  | obj : List (String × Value) → Value

/-- serde_json Value::as_bool, used by if_fn: Some exactly on booleans. -/
def Value.as_bool : Value → Option Bool
  | .bool b => some b
  | _ => none

/-- functions.rs if_fn: fetch cond (which must be a boolean), then t, then f,
each with its error message, and select a branch by cond. -/
def if_fn (args : List (String × Value)) : Except String Value :=
  match args.lookup "cond" with
  | none => .error "cond is required"
  | some c =>
    match c.as_bool with
    | none => .error "cond must be a boolean"
    | some cond =>
      match args.lookup "t" with
      | none => .error "t is required"
      | some t =>
        match args.lookup "f" with
        | none => .error "f is required"
        | some f => .ok (if cond then t else f)

/-- Strict lexicographic order on strings viewed as character lists: Rust's
Ord for String (bytewise comparison; on UTF-8 data byte order and character
order agree). -/
def keyLt : List Char → List Char → Bool
  | [], [] => false
  | [], _ :: _ => true
  | _ :: _, [] => false
  | a :: as, b :: bs => if a < b then true else if b < a then false else keyLt as bs

/-- BTreeMap::insert on the sorted-association-list model: place the binding
at its ordered position, replacing the value if the key is already present. -/
def btreeInsert : List (String × Value) → String → Value → List (String × Value)
  | [], k, v => [(k, v)]
  | (k₀, v₀) :: rest, k, v =>
    if keyLt k.data k₀.data then (k, v) :: (k₀, v₀) :: rest
    else if k = k₀ then (k, v) :: rest
    else (k₀, v₀) :: btreeInsert rest k v

/-- args.iter().collect::<BTreeMap<_, _>>() in object: insert every binding
of the argument map in iteration order. -/
def btreeOfList (l : List (String × Value)) : List (String × Value) :=
  l.foldl (fun m p => btreeInsert m p.1 p.2) []

/-- functions.rs object: collect the arguments into a BTreeMap (sorting the
args gives stable output, per the source comment) and serialize it back to a
Value, which always succeeds. -/
def object (args : List (String × Value)) : Except String Value :=
  .ok (.obj (btreeOfList args))

/-- Modelled from the spec: the canonical Color of models.rs, which is not
under src/ — hue in degrees, saturation, lightness and alpha as fractions
(spec section 3). -/
structure Color where
  h : ℚ
  s : ℚ
  l : ℚ
  a : ℚ

/-- Numeric projection of a Template Value: Some exactly on numbers. -/
def Value.asNum : Value → Option ℚ
  | .num q => some q
  | _ => none

/-- Modelled from the spec: tera::from_value deserialization of a Template
Value into a Color (the Color type of models.rs is not under src/) — a
mapping with numeric channel fields h, s, l, a; any other shape is a
malformed color record (spec section 4.1). -/
def Color.fromValue : Value → Option Color
  | .obj fields => do
    let hv ← fields.lookup "h"
    let h ← hv.asNum
    let sv ← fields.lookup "s"
    let s ← sv.asNum
    let lv ← fields.lookup "l"
    let l ← lv.asNum
    let av ← fields.lookup "a"
    let a ← av.asNum
    pure ⟨h, s, l, a⟩
  | _ => none

/-- Modelled from the spec: hue wraps modulo 360 degrees (spec section 3). -/
def hueWrap (h : ℚ) : ℚ := h - 360 * (⌊h / 360⌋ : ℚ)

/-- Modelled from the spec: conversion from the canonical HSL form to RGB
channels in 0..255, rounding to the nearest representable integer (spec
section 4.1; models.rs and the css_colors conversions are not under src/).
This is the standard piecewise formula by hue sextant. -/
def hslToRgb (h s l : ℚ) : ℤ × ℤ × ℤ :=
  let hp := hueWrap h / 60
  let c := (1 - |2 * l - 1|) * s
  let x := c * (1 - |hp - 2 * (⌊hp / 2⌋ : ℚ) - 1|)
  let m := l - c / 2
  let rgb₁ : ℚ × ℚ × ℚ :=
    if hp < 1 then (c, x, 0)
    else if hp < 2 then (x, c, 0)
    else if hp < 3 then (0, c, x)
    else if hp < 4 then (0, x, c)
    else if hp < 5 then (x, 0, c)
    else (c, 0, x)
  (round ((rgb₁.1 + m) * 255), round ((rgb₁.2.1 + m) * 255), round ((rgb₁.2.2 + m) * 255))

/-- Modelled from the spec: alpha is printed with exactly two decimal places
(spec sections 4.1 and 6). -/
def fmtTwoDec (a : ℚ) : String :=
  let n : ℤ := round (a * 100)
  let frac := (n % 100).natAbs
  toString (n / 100) ++ "." ++ (if frac < 10 then "0" else "") ++ toString frac

/-- Modelled from the spec: css_colors RGB::to_string, the text form
rgb(r, g, b) with integer channels (spec sections 4.1 and 6). -/
def Color.rgbString (c : Color) : String :=
  let rgb := hslToRgb c.h c.s c.l
  "rgb(" ++ toString rgb.1 ++ ", " ++ toString rgb.2.1 ++ ", " ++ toString rgb.2.2 ++ ")"

/-- Modelled from the spec: css_colors RGBA::to_string, rgba(r, g, b, a) with
alpha printed with two decimals (spec sections 4.1 and 6). -/
def Color.rgbaString (c : Color) : String :=
  let rgb := hslToRgb c.h c.s c.l
  "rgba(" ++ toString rgb.1 ++ ", " ++ toString rgb.2.1 ++ ", " ++ toString rgb.2.2 ++ ", "
    ++ fmtTwoDec c.a ++ ")"

/-- Modelled from the spec: css_colors HSL::to_string, hsl(h, s%, l%) with
integer hue and percentages (spec sections 4.1 and 6). -/
def Color.hslString (c : Color) : String :=
  "hsl(" ++ toString (round (hueWrap c.h)) ++ ", " ++ toString (round (c.s * 100)) ++ "%, "
    ++ toString (round (c.l * 100)) ++ "%)"

/-- Modelled from the spec: css_colors HSLA::to_string, hsla(h, s%, l%, a)
with alpha printed with two decimals (spec sections 4.1 and 6). -/
def Color.hslaString (c : Color) : String :=
  "hsla(" ++ toString (round (hueWrap c.h)) ++ ", " ++ toString (round (c.s * 100)) ++ "%, "
    ++ toString (round (c.l * 100)) ++ "%, " ++ fmtTwoDec c.a ++ ")"

/-- functions.rs css_rgb: fetch the color argument, deserialize it into a
Color, format it as an RGB CSS string. -/
def css_rgb (args : List (String × Value)) : Except String Value :=
  match args.lookup "color" with
  | none => .error "color is required"
  | some v =>
    match Color.fromValue v with
    | none => .error "malformed color"
    | some c => .ok (.str c.rgbString)

/-- functions.rs css_rgba: like css_rgb but formatted as rgba. -/
def css_rgba (args : List (String × Value)) : Except String Value :=
  match args.lookup "color" with
  | none => .error "color is required"
  | some v =>
    match Color.fromValue v with
    | none => .error "malformed color"
    | some c => .ok (.str c.rgbaString)

/-- functions.rs css_hsl: like css_rgb but formatted as hsl. -/
def css_hsl (args : List (String × Value)) : Except String Value :=
  match args.lookup "color" with
  | none => .error "color is required"
  | some v =>
    match Color.fromValue v with
    | none => .error "malformed color"
    | some c => .ok (.str c.hslString)

/-- functions.rs css_hsla: like css_rgb but formatted as hsla. -/
def css_hsla (args : List (String × Value)) : Except String Value :=
  match args.lookup "color" with
  | none => .error "color is required"
  | some v =>
    match Color.fromValue v with
    | none => .error "malformed color"
    | some c => .ok (.str c.hslaString)

/-- templating.rs FunctionExample: the recorded literal inputs (an IndexMap,
kept in insertion order) and the recorded expected output. -/
structure FunctionExample where
  inputs : List (String × String)
  output : String

/-- templating.rs Function: one function descriptor of the registry. -/
structure Function where
  name : String
  description : String
  examples : List FunctionExample

/-- templating.rs FilterExample: the piped-in literal value, the recorded
literal inputs, and the recorded expected output. -/
structure FilterExample where
  value : String
  inputs : List (String × String)
  output : String

/-- templating.rs Filter: one filter descriptor of the registry. -/
structure Filter where
  name : String
  description : String
  examples : List FilterExample

/-- templating.rs all_functions, with the function_example macro expanded
(stringify of each key and literal argument). -/
def all_functions : List Function :=
  [⟨"if", "Return one value if a condition is true, and another if it's false",
    [⟨[("cond", "true"), ("t", "1"), ("f", "0")], "1"⟩,
     ⟨[("cond", "false"), ("t", "1"), ("f", "0")], "0"⟩]⟩,
   ⟨"object", "Create an object from the input",
    [⟨[("a", "1"), ("b", "2")], "\x7ba: 1, b: 2\x7d"⟩,
     ⟨[("a", "1"), ("b", "2")], "\x7ba: 1, b: 2\x7d"⟩]⟩,
   ⟨"css_rgb", "Convert a color to an RGB CSS string",
    [⟨[("color", "red")], "rgb(210, 15, 57)"⟩]⟩,
   ⟨"css_rgba", "Convert a color to an RGBA CSS string",
    [⟨[("color", "red")], "rgba(210, 15, 57, 1.00)"⟩]⟩,
   ⟨"css_hsl", "Convert a color to an HSL CSS string",
    [⟨[("color", "red")], "hsl(347, 87%, 44%)"⟩]⟩,
   ⟨"css_hsla", "Convert a color to an HSLA CSS string",
    [⟨[("color", "red")], "hsla(347, 87%, 44%, 1.00)"⟩]⟩]

/-- templating.rs all_filters, with the filter_example macro expanded. -/
def all_filters : List Filter :=
  [⟨"add", "Add a value to a color",
    [⟨"red", [("hue", "30")], "#ff6666"⟩,
     ⟨"red", [("saturation", "0.5")], "#ff6666"⟩]⟩,
   ⟨"sub", "Subtract a value from a color",
    [⟨"red", [("hue", "30")], "#d30f9b"⟩,
     ⟨"red", [("saturation", "60")], "#8f5360"⟩]⟩,
   ⟨"mod", "Modify a color",
    [⟨"red", [("lightness", "80")], "#f8a0b3"⟩,
     ⟨"red", [("opacity", "0.5")], "#d20f3980"⟩]⟩,
   ⟨"mix", "Mix two colors together",
    [⟨"red", [("color", "base"), ("amount", "0.5")], "#e08097"⟩]⟩,
   ⟨"urlencode_lzma", "Serialize an object into a URL-safe string with LZMA compression",
    [⟨"red", [], "#ff6666"⟩,
     ⟨"some_object", [], "XQAAgAAEAAAAAAAAAABAqEggMAAAAA=="⟩]⟩,
   ⟨"trunc", "Truncate a number to a certain number of places",
    [⟨"1.123456", [("places", "3")], "1.123"⟩]⟩]

/-- tera::Tera for the purposes of make_engine: the registration table of
filter names and function names, in registration order. The registered Rust
closures themselves live in filters.rs and functions.rs. -/
structure Tera where
  filters : List String
  functions : List String

/-- tera::Tera::default(): an engine with no registrations. -/
def Tera.default : Tera := ⟨[], []⟩

/-- tera::Tera::register_filter: record a filter under the given name. -/
def Tera.register_filter (t : Tera) (n : String) : Tera :=
  ⟨t.filters ++ [n], t.functions⟩

/-- tera::Tera::register_function: record a function under the given name. -/
def Tera.register_function (t : Tera) (n : String) : Tera :=
  ⟨t.filters, t.functions ++ [n]⟩

/-- templating.rs make_engine: register the six filters and six functions on
a default engine, in source order. -/
def make_engine : Tera :=
  (((((((((((Tera.default.register_filter
    "add").register_filter
    "sub").register_filter
    "mod").register_filter
    "urlencode_lzma").register_filter
    "trunc").register_filter
    "mix").register_function
    "if").register_function
    "object").register_function
    "css_rgb").register_function
    "css_rgba").register_function
    "css_hsl").register_function
    "css_hsla"

/-- Value of a nonempty digit string. -/
def natOfDigits (l : List Char) : Nat :=
  l.foldl (fun n c => 10 * n + (c.toNat - 48)) 0

/-- Modelled from the spec: the host templating engine (an external
collaborator per spec section 1) parses an example's literal argument text
into a Template Value; boolean and unsigned integer literals become booleans
and numbers, any other text is kept as it is. -/
def parseLiteral (s : String) : Value :=
  if s = "true" then .bool true
  else if s = "false" then .bool false
  else if s.data ≠ [] ∧ ∀ c ∈ s.data, c.isDigit = true then .num (natOfDigits s.data)
  else .str s

/-- Modelled from the spec: the canonical textual rendering of a Template
Value (the serde_json compact serialization used when a value is turned into
output text; the engine and serializer are external collaborators per spec
section 1, and section 4.3 fixes the serialization as canonical). Recursion
is by an explicit structural depth so the definition evaluates by kernel
reduction; numbers with denominator one print as integers. -/
def renderJson : Nat → Value → String
  | _, .null => "null"
  | _, .bool b => cond b "true" "false"
  | _, .num q => if q.den = 1 then toString q.num else toString q.num ++ "/" ++ toString q.den
  | _, .str s => "\x22" ++ s ++ "\x22"
  | 0, .arr _ => ""
  | d + 1, .arr l => "[" ++ String.intercalate "," (l.map (renderJson d)) ++ "]"
  | 0, .obj _ => ""
  | d + 1, .obj l =>
    "\x7b" ++ String.intercalate ","
      (l.map fun p => "\x22" ++ p.1 ++ "\x22" ++ ":" ++ renderJson d p.2) ++ "\x7d"

/-- Rendering with depth 32, which covers every value in this development. -/
def Value.render (v : Value) : String := renderJson 32 v

/-- The key order on bindings: strict lexicographic comparison of the keys. -/
def pairLt (p q : String × Value) : Prop := keyLt p.1.data q.1.data = true

theorem keyLt_asymm (a : List Char) :
    ∀ b, keyLt a b = true → keyLt b a = true → False := by
  induction a with
  | nil =>
    intro b h1 h2
    cases b with
    | nil => simp [keyLt] at h1
    | cons y ys => simp [keyLt] at h2
  | cons x xs ih =>
    intro b h1 h2
    cases b with
    | nil => simp [keyLt] at h1
    | cons y ys =>
      rcases lt_trichotomy x y with h | h | h
      · simp [keyLt, h, asymm h] at h2
      · subst h
        simp [keyLt] at h1 h2
        exact ih ys h1 h2
      · simp [keyLt, h, asymm h] at h1

theorem keyLt_eq_of_not_lt (a : List Char) :
    ∀ b, keyLt a b = false → keyLt b a = false → a = b := by
  induction a with
  | nil =>
    intro b h1 _
    cases b with
    | nil => rfl
    | cons y ys => simp [keyLt] at h1
  | cons x xs ih =>
    intro b h1 h2
    cases b with
    | nil => simp [keyLt] at h2
    | cons y ys =>
      rcases lt_trichotomy x y with h | h | h
      · simp [keyLt, h] at h1
      · subst h
        simp [keyLt] at h1 h2
        rw [ih ys h1 h2]
      · simp [keyLt, h] at h2

theorem keyLt_trans (a : List Char) :
    ∀ b c, keyLt a b = true → keyLt b c = true → keyLt a c = true := by
  induction a with
  | nil =>
    intro b c h1 h2
    cases b with
    | nil => simp [keyLt] at h1
    | cons y ys =>
      cases c with
      | nil => simp [keyLt] at h2
      | cons z zs => simp [keyLt]
  | cons x xs ih =>
    intro b c h1 h2
    cases b with
    | nil => simp [keyLt] at h1
    | cons y ys =>
      cases c with
      | nil => simp [keyLt] at h2
      | cons z zs =>
        rcases lt_trichotomy x y with hxy | hxy | hxy
        · rcases lt_trichotomy y z with hyz | hyz | hyz
          · simp [keyLt, lt_trans hxy hyz]
          · subst hyz
            simp [keyLt, hxy]
          · simp [keyLt, hyz, asymm hyz] at h2
        · subst hxy
          rcases lt_trichotomy x z with hxz | hxz | hxz
          · simp [keyLt, hxz]
          · subst hxz
            simp [keyLt] at h1 h2 ⊢
            exact ih ys zs h1 h2
          · simp [keyLt, hxz, asymm hxz] at h2
        · simp [keyLt, hxy, asymm hxy] at h1

theorem btreeInsert_mem (k : String) (v : Value) :
    ∀ (m : List (String × Value)) q, q ∈ btreeInsert m k v → q = (k, v) ∨ q ∈ m := by
  intro m
  induction m with
  | nil =>
    intro q hq
    simp [btreeInsert] at hq
    exact Or.inl hq
  | cons p rest ih =>
    intro q hq
    obtain ⟨k₀, v₀⟩ := p
    by_cases h1 : keyLt k.data k₀.data = true
    · rw [btreeInsert, if_pos h1] at hq
      rcases List.mem_cons.mp hq with h | h
      · exact Or.inl h
      · exact Or.inr h
    · by_cases h2 : k = k₀
      · rw [btreeInsert, if_neg h1, if_pos h2] at hq
        rcases List.mem_cons.mp hq with h | h
        · exact Or.inl h
        · exact Or.inr (List.mem_cons_of_mem _ h)
      · rw [btreeInsert, if_neg h1, if_neg h2] at hq
        rcases List.mem_cons.mp hq with h | h
        · exact Or.inr (h ▸ List.mem_cons_self _ _)
        · rcases ih q h with h | h
          · exact Or.inl h
          · exact Or.inr (List.mem_cons_of_mem _ h)

theorem btreeInsert_sorted (k : String) (v : Value) :
    ∀ (m : List (String × Value)), List.Sorted pairLt m →
      List.Sorted pairLt (btreeInsert m k v) := by
  intro m
  induction m with
  | nil =>
    intro _
    simp [btreeInsert]
  | cons p rest ih =>
    intro hs
    obtain ⟨k₀, v₀⟩ := p
    rw [List.sorted_cons] at hs
    obtain ⟨hhead, htail⟩ := hs
    by_cases h1 : keyLt k.data k₀.data = true
    · rw [btreeInsert, if_pos h1, List.sorted_cons]
      refine ⟨?_, ?_⟩
      · intro b hb
        rcases List.mem_cons.mp hb with h | h
        · subst h
          exact h1
        · exact keyLt_trans _ _ _ h1 (hhead b h)
      · rw [List.sorted_cons]
        exact ⟨hhead, htail⟩
    · by_cases h2 : k = k₀
      · rw [btreeInsert, if_neg h1, if_pos h2, List.sorted_cons]
        refine ⟨?_, htail⟩
        intro b hb
        have hb' := hhead b hb
        unfold pairLt at hb' ⊢
        rw [h2]
        exact hb'
      · rw [btreeInsert, if_neg h1, if_neg h2, List.sorted_cons]
        refine ⟨?_, ih htail⟩
        intro b hb
        rcases btreeInsert_mem k v rest b hb with h | h
        · subst h
          unfold pairLt
          by_contra hc
          have h1f : keyLt k.data k₀.data = false := by
            exact Bool.eq_false_iff.mpr h1
          have hcf : keyLt k₀.data k.data = false := by
            exact Bool.eq_false_iff.mpr hc
          exact h2 (String.ext (keyLt_eq_of_not_lt _ _ h1f hcf))
        · exact hhead b h

theorem btreeInsert_perm_of_fresh (k : String) (v : Value) :
    ∀ (m : List (String × Value)), k ∉ m.map Prod.fst →
      (btreeInsert m k v).Perm ((k, v) :: m) := by
  intro m
  induction m with
  | nil =>
    intro _
    simp [btreeInsert]
  | cons p rest ih =>
    intro hk
    obtain ⟨k₀, v₀⟩ := p
    rw [List.map_cons, List.mem_cons] at hk
    push_neg at hk
    obtain ⟨hkk₀, hkrest⟩ := hk
    by_cases h1 : keyLt k.data k₀.data = true
    · rw [btreeInsert, if_pos h1]
    · rw [btreeInsert, if_neg h1, if_neg hkk₀]
      exact ((ih hkrest).cons (k₀, v₀)).trans (List.Perm.swap (k, v) (k₀, v₀) rest)

theorem btreeFold_sorted (l : List (String × Value)) :
    ∀ m, List.Sorted pairLt m →
      List.Sorted pairLt (l.foldl (fun m p => btreeInsert m p.1 p.2) m) := by
  induction l with
  | nil =>
    intro m hm
    exact hm
  | cons p l ih =>
    intro m hm
    exact ih _ (btreeInsert_sorted _ _ m hm)

theorem btreeFold_perm (l : List (String × Value)) :
    ∀ m, ((m ++ l).map Prod.fst).Nodup →
      (l.foldl (fun m p => btreeInsert m p.1 p.2) m).Perm (m ++ l) := by
  induction l with
  | nil =>
    intro m _
    simp
  | cons p l ih =>
    intro m hnd
    obtain ⟨k, v⟩ := p
    have hmid : ((m ++ (k, v) :: l).map Prod.fst).Perm
        (k :: (m.map Prod.fst ++ l.map Prod.fst)) := by
      rw [List.map_append, List.map_cons]
      exact List.perm_middle
    have hndk : (k :: (m.map Prod.fst ++ l.map Prod.fst)).Nodup :=
      hmid.nodup_iff.mp hnd
    rw [List.nodup_cons] at hndk
    obtain ⟨hknot, _⟩ := hndk
    have hkm : k ∉ m.map Prod.fst := fun h => hknot (List.mem_append.mpr (Or.inl h))
    have hins : (btreeInsert m k v).Perm ((k, v) :: m) :=
      btreeInsert_perm_of_fresh k v m hkm
    have hnd' : ((btreeInsert m k v ++ l).map Prod.fst).Nodup := by
      have hkeys : ((btreeInsert m k v ++ l).map Prod.fst).Perm
          ((((k, v) :: m) ++ l).map Prod.fst) := (hins.append_right l).map Prod.fst
      rw [hkeys.nodup_iff]
      have : ((((k, v) :: m) ++ l).map Prod.fst).Perm ((m ++ (k, v) :: l).map Prod.fst) := by
        rw [List.cons_append, List.map_cons, List.map_append, List.map_append, List.map_cons]
        exact List.perm_middle.symm
      exact this.nodup_iff.mpr hnd
    have hstep := ih (btreeInsert m k v) hnd'
    rw [List.foldl_cons]
    refine hstep.trans ?_
    refine (hins.append_right l).trans ?_
    rw [List.cons_append]
    exact List.perm_middle.symm

theorem btreeOfList_perm (l : List (String × Value)) (h : (l.map Prod.fst).Nodup) :
    (btreeOfList l).Perm l := by
  have := btreeFold_perm l [] (by simpa using h)
  simpa [btreeOfList] using this

theorem btreeOfList_sorted (l : List (String × Value)) :
    List.Sorted pairLt (btreeOfList l) :=
  btreeFold_sorted l [] List.sorted_nil

theorem btreeOfList_eq_of_perm (l₁ l₂ : List (String × Value)) (hp : l₁.Perm l₂)
    (hn : (l₁.map Prod.fst).Nodup) : btreeOfList l₁ = btreeOfList l₂ := by
  have hn₂ : (l₂.map Prod.fst).Nodup := ((hp.map Prod.fst).nodup_iff).mp hn
  haveI : IsAntisymm (String × Value) pairLt :=
    ⟨fun _ _ h1 h2 => (keyLt_asymm _ _ h1 h2).elim⟩
  exact List.eq_of_perm_of_sorted
    (((btreeOfList_perm l₁ hn).trans hp).trans (btreeOfList_perm l₂ hn₂).symm)
    (btreeOfList_sorted l₁) (btreeOfList_sorted l₂)

theorem lookup_eq_of_perm (k : String) {l₁ l₂ : List (String × Value)} (hp : l₁.Perm l₂) :
    (l₁.map Prod.fst).Nodup → l₁.lookup k = l₂.lookup k := by
  induction hp with
  | nil =>
    intro _
    rfl
  | cons x hp ih =>
    intro hn
    obtain ⟨k₀, v₀⟩ := x
    rw [List.map_cons, List.nodup_cons] at hn
    cases hbeq : (k == k₀) with
    | true => simp [List.lookup, hbeq]
    | false => simp [List.lookup, hbeq, ih hn.2]
  | swap x y l =>
    intro hn
    obtain ⟨kx, vx⟩ := x
    obtain ⟨ky, vy⟩ := y
    rw [List.map_cons, List.map_cons, List.nodup_cons, List.mem_cons] at hn
    push_neg at hn
    have hne : ky ≠ kx := hn.1.1
    cases hky : (k == ky) with
    | true =>
      cases hkx : (k == kx) with
      | true => exact absurd ((eq_of_beq hky).symm.trans (eq_of_beq hkx)) hne
      | false => simp [List.lookup, hky, hkx]
    | false =>
      cases hkx : (k == kx) with
      | true => simp [List.lookup, hky, hkx]
      | false => simp [List.lookup, hky, hkx]
  | trans hp₁ hp₂ ih₁ ih₂ =>
    intro hn
    have hn₂ := ((hp₁.map Prod.fst).nodup_iff).mp hn
    exact (ih₁ hn).trans (ih₂ hn₂)

/-- Claim C1: for every argument map that binds cond to a boolean and binds t
and f to any values, if_fn succeeds and returns the value of t when cond is
true and the value of f when cond is false. -/
theorem if_fn_selects_branch (args : List (String × Value)) (b : Bool) (vt vf : Value)
    (hc : args.lookup "cond" = some (.bool b))
    (ht : args.lookup "t" = some vt)
    (hf : args.lookup "f" = some vf) :
    if_fn args = .ok (if b then vt else vf) := by
  simp [if_fn, hc, ht, hf, Value.as_bool]

/-- Claim C1 witness: if(cond=true, t=1, f=0) returns 1 and
if(cond=false, t=1, f=0) returns 0. -/
theorem if_fn_selects_branch_witness :
    if_fn [("cond", .bool true), ("t", .num 1), ("f", .num 0)] = .ok (.num 1) ∧
    if_fn [("cond", .bool false), ("t", .num 1), ("f", .num 0)] = .ok (.num 0) :=
  ⟨if_fn_selects_branch _ true (.num 1) (.num 0) rfl rfl rfl,
   if_fn_selects_branch _ false (.num 1) (.num 0) rfl rfl rfl⟩

/-- Claim C10: if_fn requires both branch arguments regardless of the value
of the condition — with cond false and t absent, or cond true and f absent,
it returns an error rather than the selected branch. -/
theorem if_fn_requires_both_branches (args : List (String × Value))
    (h : (args.lookup "cond" = some (.bool false) ∧ args.lookup "t" = none) ∨
         (args.lookup "cond" = some (.bool true) ∧ args.lookup "f" = none)) :
    ∃ e, if_fn args = .error e := by
  rcases h with ⟨hc, ht⟩ | ⟨hc, hf⟩
  · exact ⟨"t is required", by simp [if_fn, hc, ht, Value.as_bool]⟩
  · cases hlt : args.lookup "t" with
    | none => exact ⟨"t is required", by simp [if_fn, hc, hlt, Value.as_bool]⟩
    | some t => exact ⟨"f is required", by simp [if_fn, hc, hlt, hf, Value.as_bool]⟩

/-- Claim C10 witness: with cond bound to false and f bound but t absent,
if_fn reports an error instead of returning the value of f. -/
theorem if_fn_requires_both_branches_witness :
    ∃ e, if_fn [("cond", .bool false), ("f", .num 0)] = .error e :=
  if_fn_requires_both_branches _ (Or.inl ⟨rfl, rfl⟩)

/-- Claim C2: on every argument map (association list with the HashMap
invariant of pairwise distinct keys), object succeeds and returns a mapping
holding exactly the supplied bindings with keys in strict lexicographic
order, and any two argument maps equal as sets of bindings (permutations of
one another) produce identical results. -/
theorem object_sorted_and_deterministic (l₁ l₂ : List (String × Value))
    (hp : l₁.Perm l₂) (hn : (l₁.map Prod.fst).Nodup) :
    (∃ r, object l₁ = .ok (.obj r) ∧ r.Perm l₁ ∧ List.Sorted pairLt r) ∧
    object l₁ = object l₂ := by
  refine ⟨⟨btreeOfList l₁, rfl, btreeOfList_perm l₁ hn, btreeOfList_sorted l₁⟩, ?_⟩
  simp only [object]
  rw [btreeOfList_eq_of_perm l₁ l₂ hp hn]

/-- Claim C2 witness: object(a=1, b=2) agrees with object given the same
bindings in the opposite insertion order, and places key a before key b. -/
theorem object_sorted_and_deterministic_witness :
    ((∃ r, object [("b", Value.num 2), ("a", Value.num 1)] = .ok (.obj r) ∧
        r.Perm [("b", Value.num 2), ("a", Value.num 1)] ∧ List.Sorted pairLt r) ∧
      object [("b", Value.num 2), ("a", Value.num 1)] =
        object [("a", Value.num 1), ("b", Value.num 2)]) ∧
    object [("b", Value.num 2), ("a", Value.num 1)] =
      .ok (.obj [("a", Value.num 1), ("b", Value.num 2)]) :=
  ⟨object_sorted_and_deterministic _ _ (List.Perm.swap _ _ _) (by decide), rfl⟩

/-- Claim C9: operation names are unique within their kind — no two function
descriptors of all_functions share a name, and no two filter descriptors of
all_filters share a name. -/
theorem registry_names_unique :
    (all_functions.map Function.name).Nodup ∧ (all_filters.map Filter.name).Nodup := by
  constructor <;> decide

/-- Claim C5 counterexample: no operation is registered under the exact name
urlencode — neither among the filters nor among the functions of the engine
built by make_engine (the encoding filter is named urlencode_lzma). -/
theorem urlencode_not_registered :
    "urlencode" ∉ make_engine.filters ∧ "urlencode" ∉ make_engine.functions := by
  constructor <;> decide

/-- Claim C5 amended: make_engine registers exactly the filters add, sub,
mod, urlencode_lzma, trunc, mix and the functions if, object, css_rgb,
css_rgba, css_hsl, css_hsla; the encoding operation is registered only as the
filter urlencode_lzma and not as a function. -/
theorem make_engine_registrations :
    make_engine.filters = ["add", "sub", "mod", "urlencode_lzma", "trunc", "mix"] ∧
    make_engine.functions = ["if", "object", "css_rgb", "css_rgba", "css_hsl", "css_hsla"] ∧
    "urlencode_lzma" ∈ make_engine.filters ∧ "urlencode_lzma" ∉ make_engine.functions := by
  refine ⟨rfl, rfl, ?_, ?_⟩ <;> decide

/-- Claim C6: bad input is reported, never fatal — the operations are total
Lean functions, and they return an error value when if_fn misses any of the
arguments cond, t, f, when cond is bound to a non-boolean, and when the css
color functions miss the color argument or receive a value that does not
deserialize into a color record. -/
theorem ops_report_errors (args : List (String × Value)) :
    (args.lookup "cond" = none → ∃ e, if_fn args = .error e) ∧
    (args.lookup "t" = none → ∃ e, if_fn args = .error e) ∧
    (args.lookup "f" = none → ∃ e, if_fn args = .error e) ∧
    (∀ v, args.lookup "cond" = some v → v.as_bool = none → ∃ e, if_fn args = .error e) ∧
    (args.lookup "color" = none →
      (∃ e, css_rgb args = .error e) ∧ (∃ e, css_rgba args = .error e) ∧
      (∃ e, css_hsl args = .error e) ∧ (∃ e, css_hsla args = .error e)) ∧
    (∀ v, args.lookup "color" = some v → Color.fromValue v = none →
      (∃ e, css_rgb args = .error e) ∧ (∃ e, css_rgba args = .error e) ∧
      (∃ e, css_hsl args = .error e) ∧ (∃ e, css_hsla args = .error e)) := by
  refine ⟨?_, ?_, ?_, ?_, ?_, ?_⟩
  · intro h
    exact ⟨"cond is required", by simp [if_fn, h]⟩
  · intro h
    cases hc : args.lookup "cond" with
    | none => exact ⟨"cond is required", by simp [if_fn, hc]⟩
    | some c =>
      cases hb : c.as_bool with
      | none => exact ⟨"cond must be a boolean", by simp [if_fn, hc, hb]⟩
      | some b => exact ⟨"t is required", by simp [if_fn, hc, hb, h]⟩
  · intro h
    cases hc : args.lookup "cond" with
    | none => exact ⟨"cond is required", by simp [if_fn, hc]⟩
    | some c =>
      cases hb : c.as_bool with
      | none => exact ⟨"cond must be a boolean", by simp [if_fn, hc, hb]⟩
      | some b =>
        cases hlt : args.lookup "t" with
        | none => exact ⟨"t is required", by simp [if_fn, hc, hb, hlt]⟩
        | some t => exact ⟨"f is required", by simp [if_fn, hc, hb, hlt, h]⟩
  · intro v hv hb
    exact ⟨"cond must be a boolean", by simp [if_fn, hv, hb]⟩
  · intro h
    exact ⟨⟨"color is required", by simp [css_rgb, h]⟩,
      ⟨"color is required", by simp [css_rgba, h]⟩,
      ⟨"color is required", by simp [css_hsl, h]⟩,
      ⟨"color is required", by simp [css_hsla, h]⟩⟩
  · intro v hv hc
    exact ⟨⟨"malformed color", by simp [css_rgb, hv, hc]⟩,
      ⟨"malformed color", by simp [css_rgba, hv, hc]⟩,
      ⟨"malformed color", by simp [css_hsl, hv, hc]⟩,
      ⟨"malformed color", by simp [css_hsla, hv, hc]⟩⟩

/-- Claim C6 witness: on the empty argument map if_fn and css_rgb report
errors, and css_rgb reports an error when color is bound to a plain number,
which is not a color record. -/
theorem ops_report_errors_witness :
    (∃ e, if_fn [] = .error e) ∧ (∃ e, css_rgb [] = .error e) ∧
    (∃ e, css_rgb [("color", Value.num 5)] = .error e) :=
  ⟨(ops_report_errors []).1 rfl,
   ((ops_report_errors []).2.2.2.2.1 rfl).1,
   ((ops_report_errors [("color", Value.num 5)]).2.2.2.2.2 (Value.num 5) rfl rfl).1⟩

/-- Claim C8: every function of the function set is deterministic — two
invocations on equal argument maps (maps holding the same bindings, i.e.
association lists that are permutations of one another under the HashMap
invariant of distinct keys) return equal results, success or error alike. -/
theorem functions_deterministic (l₁ l₂ : List (String × Value))
    (hp : l₁.Perm l₂) (hn : (l₁.map Prod.fst).Nodup) :
    if_fn l₁ = if_fn l₂ ∧ object l₁ = object l₂ ∧ css_rgb l₁ = css_rgb l₂ ∧
    css_rgba l₁ = css_rgba l₂ ∧ css_hsl l₁ = css_hsl l₂ ∧ css_hsla l₁ = css_hsla l₂ := by
  have hk : ∀ k, l₁.lookup k = l₂.lookup k := fun k => lookup_eq_of_perm k hp hn
  refine ⟨?_, ?_, ?_, ?_, ?_, ?_⟩
  · simp only [if_fn, hk]
  · simp only [object, btreeOfList_eq_of_perm l₁ l₂ hp hn]
  · simp only [css_rgb, hk]
  · simp only [css_rgba, hk]
  · simp only [css_hsl, hk]
  · simp only [css_hsla, hk]

/-- Claim C8 witness: the six functions agree on two concrete equal argument
maps given in different insertion orders. -/
theorem functions_deterministic_witness :
    if_fn [("cond", Value.bool true), ("t", Value.num 1), ("f", Value.num 0)] =
      if_fn [("t", Value.num 1), ("cond", Value.bool true), ("f", Value.num 0)] ∧
    object [("cond", Value.bool true), ("t", Value.num 1), ("f", Value.num 0)] =
      object [("t", Value.num 1), ("cond", Value.bool true), ("f", Value.num 0)] ∧
    css_rgb [("cond", Value.bool true), ("t", Value.num 1), ("f", Value.num 0)] =
      css_rgb [("t", Value.num 1), ("cond", Value.bool true), ("f", Value.num 0)] ∧
    css_rgba [("cond", Value.bool true), ("t", Value.num 1), ("f", Value.num 0)] =
      css_rgba [("t", Value.num 1), ("cond", Value.bool true), ("f", Value.num 0)] ∧
    css_hsl [("cond", Value.bool true), ("t", Value.num 1), ("f", Value.num 0)] =
      css_hsl [("t", Value.num 1), ("cond", Value.bool true), ("f", Value.num 0)] ∧
    css_hsla [("cond", Value.bool true), ("t", Value.num 1), ("f", Value.num 0)] =
      css_hsla [("t", Value.num 1), ("cond", Value.bool true), ("f", Value.num 0)] :=
  functions_deterministic _ _ (List.Perm.swap _ _ _) (by decide)

/-- Claim C4 counterexample: the Operation Registry records for the
urlencode filter (urlencode_lzma) an output that contains the padding
character, contradicting the claim that every recorded urlencode output is
free of padding. -/
theorem urlencode_recorded_output_has_padding :
    ∃ f, f ∈ all_filters ∧ f.name = "urlencode_lzma" ∧
      ∃ ex, ex ∈ f.examples ∧ '=' ∈ ex.output.data := by
  refine ⟨⟨"urlencode_lzma",
    "Serialize an object into a URL-safe string with LZMA compression",
    [⟨"red", [], "#ff6666"⟩,
     ⟨"some_object", [], "XQAAgAAEAAAAAAAAAABAqEggMAAAAA=="⟩]⟩,
    ?_, rfl, ⟨"some_object", [], "XQAAgAAEAAAAAAAAAABAqEggMAAAAA=="⟩, ?_, ?_⟩
  · simp [all_filters]
  · simp
  · decide

/-- Claim C4 amended: the encoded token the registry records for the
urlencode filter is URL-safe base64 with padding — every character of the
recorded token XQAAgAAEAAAAAAAAAABAqEggMAAAAA== lies in the URL-safe base64
alphabet extended with the padding character, and the token ends in two
padding characters. -/
theorem urlencode_recorded_token_base64url_padded :
    ∃ f, f ∈ all_filters ∧ f.name = "urlencode_lzma" ∧
      ∃ ex, ex ∈ f.examples ∧ ex.value = "some_object" ∧
        ex.output.data.reverse.take 2 = ['=', '='] ∧
        ∀ c ∈ ex.output.data, c.isAlphanum = true ∨ c = '-' ∨ c = '_' ∨ c = '=' := by
  refine ⟨⟨"urlencode_lzma",
    "Serialize an object into a URL-safe string with LZMA compression",
    [⟨"red", [], "#ff6666"⟩,
     ⟨"some_object", [], "XQAAgAAEAAAAAAAAAABAqEggMAAAAA=="⟩]⟩,
    ?_, rfl, ⟨"some_object", [], "XQAAgAAEAAAAAAAAAABAqEggMAAAAA=="⟩, ?_, rfl, ?_, ?_⟩
  · simp [all_filters]
  · simp
  · decide
  · decide

/-- Claim C3 refuted (code bug): the object example of the Operation
Registry records inputs a=1, b=2 with expected output text whose keys are
unquoted, but executing object on those arguments yields the mapping from a
to 1 and b to 2, whose canonical rendering quotes its keys — so this example
cannot reproduce its recorded output, while the spec requires every recorded
example to reproduce exactly. -/
theorem object_example_does_not_reproduce :
    ∃ f, f ∈ all_functions ∧ f.name = "object" ∧
      ∃ ex, ex ∈ f.examples ∧
        ex.inputs = [("a", "1"), ("b", "2")] ∧
        ex.output = "\x7ba: 1, b: 2\x7d" ∧
        object (ex.inputs.map fun p => (p.1, parseLiteral p.2)) =
          .ok (.obj [("a", .num 1), ("b", .num 2)]) ∧
        Value.render (.obj [("a", .num 1), ("b", .num 2)]) =
          "\x7b\x22a\x22:1,\x22b\x22:2\x7d" ∧
        Value.render (.obj [("a", .num 1), ("b", .num 2)]) ≠ ex.output := by
  refine ⟨⟨"object", "Create an object from the input",
    [⟨[("a", "1"), ("b", "2")], "\x7ba: 1, b: 2\x7d"⟩,
     ⟨[("a", "1"), ("b", "2")], "\x7ba: 1, b: 2\x7d"⟩]⟩,
    ?_, rfl, ⟨[("a", "1"), ("b", "2")], "\x7ba: 1, b: 2\x7d"⟩, ?_, rfl, rfl, ?_, ?_, ?_⟩
  · simp [all_functions]
  · simp
  · rfl
  · rfl
  · decide

/-- Claim C7: on the color with hue 347, saturation 0.87, lightness 0.44,
alpha 1, css_rgb returns the string rgb(210, 15, 57) and css_hsla returns
the string hsla(347, 87%, 44%, 1.00). -/
theorem css_concrete_outputs :
    css_rgb [("color", Value.obj
        [("h", .num 347), ("s", .num (87 / 100)), ("l", .num (44 / 100)), ("a", .num 1)])] =
      .ok (.str "rgb(210, 15, 57)") ∧
    css_hsla [("color", Value.obj
        [("h", .num 347), ("s", .num (87 / 100)), ("l", .num (44 / 100)), ("a", .num 1)])] =
      .ok (.str "hsla(347, 87%, 44%, 1.00)") := by
  have hrgb : hslToRgb 347 (87 / 100) (44 / 100) = (210, 15, 57) := by
    simp only [hslToRgb, hueWrap]
    norm_num [round_eq]
    rw [show |(3 : ℚ) / 25| = 3 / 25 from abs_of_nonneg (by norm_num),
      show |(47 : ℚ) / 60| = 47 / 60 from abs_of_nonneg (by norm_num)]
    norm_num
  have h1 : Color.rgbString ⟨347, 87 / 100, 44 / 100, 1⟩ = "rgb(210, 15, 57)" := by
    simp only [Color.rgbString, hrgb]
    rfl
  have e1 : round (hueWrap (347 : ℚ)) = 347 := by norm_num [hueWrap, round_eq]
  have e2 : round ((87 : ℚ) / 100 * 100) = 87 := by norm_num [round_eq]
  have e3 : round ((44 : ℚ) / 100 * 100) = 44 := by norm_num [round_eq]
  have e4 : round ((1 : ℚ) * 100) = 100 := by norm_num [round_eq]
  have h2 : Color.hslaString ⟨347, 87 / 100, 44 / 100, 1⟩ = "hsla(347, 87%, 44%, 1.00)" := by
    simp only [Color.hslaString, fmtTwoDec, e1, e2, e3, e4]
    rfl
  constructor
  · show Except.ok (Value.str (Color.rgbString ⟨347, 87 / 100, 44 / 100, 1⟩)) = _
    rw [h1]
  · show Except.ok (Value.str (Color.hslaString ⟨347, 87 / 100, 44 / 100, 1⟩)) = _
    rw [h2]

end Whiskers
